import Mathlib

/-!
# Verification of the cash-pay-server-js client library

Shallow embedding, in Lean 4, of the core of the `cash-pay-server-js`
repository: the Invoice lifecycle coordinator (`src/invoice.js`, with its
historical revisions concatenated in the same file), the event registry
defaults (`src/config.js`), and the webhook signature-verification
subsystem (`src/webhook.js`).

Conventions used throughout:
* JavaScript objects become Lean structures; a field that may be absent
  (`undefined`) becomes an `Option`.
* JavaScript truthiness of a string-valued field is `jsTruthy`.
* Asynchronous HTTP effects are passed in as explicit results
  (`Except Unit _` for a request that may reject) and the embedding
  records, in its return value, which requests were issued.
* `Math.round(a / 1000)` on integer millisecond values is `jsRound1000`.
* The external crypto library (`libcash-js`) is a parameter of the
  verification environment: `sha256` and `eccVerify` are arbitrary
  functions, instantiated with concrete toy functions in witnesses.
-/

namespace CashPay

/-- JS truthiness of a possibly-absent string value:
`undefined`, `null` and the empty string are falsy. -/
def jsTruthy : Option String → Bool
  | none => false
  | some s => s != ""

/-- Overwrite-if-present semantics of one field under `Object.assign`:
the source field wins whenever the source object carries the key. -/
def assignField {α : Type} (old new : Option α) : Option α :=
  match new with
  | some v => some v
  | none => old

/-!
## Invoice state (primary revision of `src/invoice.js`, lines 49-504)

The fields of the invoice relevant to creation and to the push handlers.
`_id` is the field tested by `create()`'s guard (`if (!this._id)`);
`id` is the documented invoice identifier (constructor JSDoc, `_listen`'s
`subscribe` message, and the `this.id = null` initialisation of the later
revision); `expires` stands for the ordinary mergeable server fields.
-/
structure InvoiceV1 where
  _id : Option String
  id : Option String
  expires : Option Int
deriving DecidableEq, Repr

/-- A `requested`/`broadcasted` WebSocket message: `msg.invoice` is the
server-sent invoice snapshot. -/
structure PushMsg where
  invoice : InvoiceV1
deriving DecidableEq, Repr

namespace Invoice

/-- A fresh `new Invoice()`: neither identifier field is present
(`config.invoice` declares no `id`/`_id` key). -/
def init : InvoiceV1 := ⟨none, none, none⟩

/-- Model of `Object.assign(this, invoiceRes.data)` performed by `create()` on the
server's response (src/invoice.js line 311 / line 821): every key present
in the response overwrites the local field. -/
def createMerge (st resp : InvoiceV1) : InvoiceV1 :=
  { _id := assignField st._id resp._id
    id := assignField st.id resp.id
    expires := assignField st.expires resp.expires }

/-- The creation step of `Invoice.create` (src/invoice.js lines 308-312 and
817-822): when `this._id` is falsy it POSTs to `{endpoint}/invoice/create`
and merges the response; otherwise it skips the request.  The second
component counts the HTTP POSTs performed by the call (the listener/event
setup that follows runs either way and performs no POST). -/
def create (st : InvoiceV1) (resp : InvoiceV1) : InvoiceV1 × Nat :=
  if jsTruthy st._id then (st, 0)
  else (createMerge st resp, 1)

/-- The `requested` handler installed by `_listen` (src/invoice.js lines
374-377): `Object.assign(this, _.omit(msg.invoice, 'id'))` merges every
server-sent field except `id`, then dispatches the `requested`
callbacks. -/
def handleRequested (st : InvoiceV1) (msg : PushMsg) : InvoiceV1 :=
  { _id := assignField st._id msg.invoice._id
    id := st.id
    expires := assignField st.expires msg.invoice.expires }

/-- The `broadcasted` handler installed by `_listen` (src/invoice.js lines
379-382): same merge, `Object.assign(this, _.omit(msg.invoice, 'id'))`,
followed by the `broadcasted` dispatch. -/
def handleBroadcasted (st : InvoiceV1) (msg : PushMsg) : InvoiceV1 :=
  { _id := assignField st._id msg.invoice._id
    id := st.id
    expires := assignField st.expires msg.invoice.expires }

end Invoice

/-- A response obeying the documented wire contract of
`POST {endpoint}/invoice/create`: it assigns the invoice identifier `id`
(spec §6; `create`'s own JSDoc "If "id" does not exist on invoice, a new
Invoice will be requested") and carries no `_id` key. -/
def respDocumented : InvoiceV1 := ⟨none, some ("abc"), some 900⟩

/-!
## Event registry defaults (`src/config.js`, lines 28-42)

`config.options.on` pre-declares exactly nine event names, each with an
empty callback list.  `Invoice.on` pushes into `this._instance.on[event]`;
for a key that is not in the map the lookup yields `undefined` and the
`.push` throws a TypeError.  Callbacks are registration tokens (`Nat`). -/
def eventNames : List String :=
  ["created", "connected", "subscribed", "requested", "broadcasting",
   "broadcasted", "expired", "timer", "failed"]

/-- The per-instance event map: an association list from event name to the
ordered list of registered callbacks. -/
abbrev OnMap : Type := List (String × List Nat)

/-- The default `config.options.on` object: the nine declared event names,
each bound to an empty callback list. -/
def defaultOnMap : OnMap := eventNames.map (fun e => (e, []))

/-- Lookup of `this._instance.on[event]`. -/
def onLookup (m : OnMap) (e : String) : Option (List Nat) :=
  (m.find? (fun p => p.1 == e)).map (fun p => p.2)

/-- Replace the callback list bound to an (existing) event name. -/
def onSet (m : OnMap) (e : String) (l : List Nat) : OnMap :=
  m.map (fun p => if p.1 == e then (p.1, l) else p)

namespace Invoice

/-- Model of `Invoice.on(events, callback)` (src/invoice.js lines 120-128), named
`onEvent` here because `on` is reserved in Lean:
`events.forEach(event => this._instance.on[event].push(callback))`.
Each event name is processed in order; an unknown name makes
`this._instance.on[event]` `undefined`, so the `.push` throws a TypeError
(modelled as `Except.error`), after the pushes for the earlier names have
already happened. -/
def onEvent (events : List String) (cb : Nat) (m : OnMap) : Except Unit OnMap :=
  match events with
  | [] => .ok m
  | e :: rest =>
    match onLookup m e with
    | none => .error ()
    | some l => onEvent rest cb (onSet m e (l ++ [cb]))

end Invoice

/-!
## Expiry countdown (`Invoice._setupExpirationTimer`, src/invoice.js lines 394-406)

The timer callback runs once per second (`setInterval(fn, 1000)`); the
model assumes the idealised 1000 ms tick cadence of the discrete event
loop.  Each tick recomputes

  `secondsRemaining = Math.round((expires*1000 - Date.now()) / 1000)`

and fires `timer(secondsRemaining)` when the value is a non-zero number,
else fires `expired()`.  The interval itself never stops in
`_setupExpirationTimer`; `create()` (lines 319-322) registers an
`expired`/`broadcasted` listener that calls
`clearInterval(this._instance.expiryTimer)`, so the dispatch of the first
`expired` event synchronously stops the countdown (`stopped := true`). -/

/-- Value of `Math.round(a / 1000)` for an integer number `a` of milliseconds:
JS rounds half towards positive infinity, i.e. `⌊a/1000 + 1/2⌋`. -/
def jsRound1000 (a : Int) : Int := (2 * a + 1000) / 2000

/-- The `secondsRemaining` computed by the tick callback at the `k`-th tick
(`k ≥ 1`), with `expiresMs = this.expires * 1000` and the tick firing at
wall-clock time `startMs + 1000 * k`. -/
def secondsRemainingAt (expiresMs startMs : Int) (k : Nat) : Int :=
  jsRound1000 (expiresMs - (startMs + 1000 * (k : Int)))

/-- An event delivered by the countdown: `timer(secondsRemaining)` or
`expired()`. -/
inductive CountdownEvent where
  | timer (secondsRemaining : Int)
  | expired
deriving DecidableEq, Repr

/-- The countdown's instance state: ticks elapsed, whether the interval
has been cleared, and the events dispatched so far (in order). -/
structure CountdownState where
  ticksDone : Nat
  stopped : Bool
  events : List CountdownEvent
deriving DecidableEq, Repr

/-- State right after `create()` calls `_setupExpirationTimer()`. -/
def countdownInit : CountdownState := ⟨0, false, []⟩

/-- One interval tick: when the interval has been cleared nothing runs;
otherwise the callback fires `timer(r)` for non-zero `r` and `expired()`
for `r = 0`, in which case the listener registered by `create()` clears
the interval during the same dispatch. -/
def tickStep (expiresMs startMs : Int) (s : CountdownState) : CountdownState :=
  if s.stopped then s
  else
    let r := secondsRemainingAt expiresMs startMs (s.ticksDone + 1)
    if r ≠ 0 then ⟨s.ticksDone + 1, false, s.events ++ [.timer r]⟩
    else ⟨s.ticksDone + 1, true, s.events ++ [.expired]⟩

/-- The countdown after `n` interval ticks. -/
def runCountdown (expiresMs startMs : Int) : Nat → CountdownState
  | 0 => countdownInit
  | n + 1 => tickStep expiresMs startMs (runCountdown expiresMs startMs n)

/-!
## Invoice state and `create()` of the globals revision
(`src/invoice.js` lines 1124-1559, the revision whose `staticInvoice()`
sets `this.invoice.options.behavior = 'static'`)
-/

/-- The server-assigned `details` block, reduced to the field `create()`
consults. -/
structure GDetails where
  behavior : String
deriving DecidableEq, Repr

/-- State `this.invoice` of the globals revision: identifier plus details. -/
structure GInvoice where
  id : Option String
  details : GDetails
deriving DecidableEq, Repr

/-- A `requested`/`broadcasted` WebSocket message of the globals
revision. -/
structure GPushMsg where
  invoice : GInvoice
deriving DecidableEq, Repr

/-- The coordinator state of the globals revision: the `this.invoice`
object it owns. -/
structure GState where
  invoice : GInvoice
deriving DecidableEq, Repr

/-- Observable outcome of the globals revision's `create()`. -/
structure GCreateOut where
  invoice : GInvoice
  posts : Nat
  timerStarted : Bool
  countdownEvents : List CountdownEvent
deriving DecidableEq, Repr

namespace GlobalsInvoice

/-- Model of `create()` of the globals revision (src/invoice.js lines 1189-1223):
skip the POST when `this.invoice.id` is truthy, else POST and replace
`this.invoice` with the response; then, under `this._options.listen`,
start the expiration timer only when `this.invoice.details.behavior ===
'normal'` (lines 1200-1204).  `countdown` is the event trace the interval
would deliver if started; an invoice whose timer is never started gets no
countdown-driven events. -/
def create (st : GInvoice) (resp : GInvoice) (listen : Bool)
    (countdown : List CountdownEvent) : GCreateOut :=
  let inv := if jsTruthy st.id then st else resp
  let posts := if jsTruthy st.id then 0 else 1
  let ts := listen && (inv.details.behavior == "normal")
  { invoice := inv, posts := posts, timerStarted := ts,
    countdownEvents := if ts then countdown else [] }

/-- The `requested` handler of the globals revision's `_listen`
(src/invoice.js lines 1423-1426): `this.invoice = msg.invoice` replaces
the whole local invoice object with the server-sent snapshot. -/
def handleRequested (_st : GState) (msg : GPushMsg) : GState :=
  { invoice := msg.invoice }

/-- The `broadcasted` handler of the globals revision's `_listen`
(src/invoice.js lines 1428-1431): again `this.invoice = msg.invoice`. -/
def handleBroadcasted (_st : GState) (msg : GPushMsg) : GState :=
  { invoice := msg.invoice }

end GlobalsInvoice

/-!
## Webhook signature verification (`src/webhook.js`)

`digest` and `x-signature` reach the code base64-encoded and are decoded
with `Buffer.from(s, 'base64')`; the model works directly with the decoded
byte lists.  Dates (`expirationDate`, `new Date()`) are UTC epoch
milliseconds.  The crypto primitives live in `VerifEnv`.
-/

/-- One entry of `this._keys`: the trusted key set cached for a server
identity (src/webhook.js lines 38-42). -/
structure KeyEntry where
  endpoint : String
  expirationDate : Int
  publicKeys : List String
deriving DecidableEq, Repr

/-- Cache `this._keys`: association from server identity (`owner`) to its
cached key entry. -/
abbrev KeyMap : Type := List (String × KeyEntry)

/-- Lookup `this._keys[identity]`. -/
def getKey (st : KeyMap) (idt : String) : Option KeyEntry :=
  (st.find? (fun p => p.1 == idt)).map (fun p => p.2)

/-- Assignment `this._keys[owner] = entry`: replace the entry when the key exists,
otherwise append it. -/
def putKey (st : KeyMap) (owner : String) (entry : KeyEntry) : KeyMap :=
  if (st.find? (fun p => p.1 == owner)).isSome then
    st.map (fun p => if p.1 == owner then (owner, entry) else p)
  else st ++ [(owner, entry)]

/-- The JSON body of `GET {endpoint}/signingKeys/paymentProtocol.json`. -/
structure KeysResponse where
  owner : String
  expirationDate : Int
  publicKeys : List String
deriving DecidableEq, Repr

/-- The ambient effects of a verification call: the current time, the
outcome of the signing-keys HTTP GET per endpoint, and the crypto
primitives of `libcash-js`. -/
structure VerifEnv where
  now : Int
  fetch : String → Except Unit KeysResponse
  sha256 : List Nat → List Nat
  eccVerify : String → List Nat → List Nat → Bool

/-- The distinguishable failures of a verification call.  The code throws
plain `Error`s with distinct messages, except for an unknown identity,
where it crashes with a JS `TypeError` while reading
`trusted.expirationDate` of `undefined` (`typeError` here).  `trustError`
is the specification's name for a distinguished unknown-identity failure;
no code path of `src/webhook.js` produces it. -/
inductive VerifError where
  | unsupportedSignatureType
  | typeError
  | keyFetchError
  | digestMismatch
  | signatureInvalid
  | trustError
deriving DecidableEq, Repr

/-- The headers consumed by `verifySignature`, with `digest` and
`x-signature` already base64-decoded to byte lists. -/
structure Headers where
  digest : List Nat
  xIdentity : String
  xSignature : List Nat
  xSignatureType : String
deriving DecidableEq, Repr

/-- Observable outcome of one `verifySignature` call: the key cache
afterwards, the settled result (`none` = resolved without error), and the
endpoints fetched over HTTP during the call, in order. -/
structure VerifyOut where
  keys : KeyMap
  result : Option VerifError
  gets : List String
deriving DecidableEq, Repr

namespace Webhook

/-- Model of `Webhook.addTrusted(endpoint)` (src/webhook.js lines 36-45): performs
`axios.get` on the signing-keys resource (its settled outcome is the
`fetched` argument) and, only on success, stores the entry under
`res.data.owner`.  A rejected GET propagates and the assignment never
runs. -/
def addTrusted (st : KeyMap) (endpoint : String)
    (fetched : Except Unit KeysResponse) : KeyMap × Option VerifError :=
  match fetched with
  | .error _ => (st, some .keyFetchError)
  | .ok r => (putKey st r.owner ⟨endpoint, r.expirationDate, r.publicKeys⟩, none)

/-- The tail of `verifySignature` after the refresh decision
(src/webhook.js lines 91-110): compare `sha256(payload)` with the header
digest (`Buffer.compare` is non-zero exactly on inequality, and a
non-zero value throws), then reduce over `this._keys[identity].publicKeys`
with `isValid += ECPair.verify(...)` starting from `false` — JS numeric
coercion makes the accumulator the count of keys that verified — and
throw when the final value is falsy (zero). -/
def finishVerify (env : VerifEnv) (st : KeyMap) (payload : List Nat)
    (headers : Headers) (gets : List String) : VerifyOut :=
  let payloadDigest := env.sha256 payload
  if payloadDigest ≠ headers.digest then ⟨st, some .digestMismatch, gets⟩
  else
    match getKey st headers.xIdentity with
    | none => ⟨st, some .typeError, gets⟩
    | some t =>
      let correct := t.publicKeys.foldl
        (fun acc pk =>
          acc + (if env.eccVerify pk headers.digest headers.xSignature then 1 else 0))
        (0 : Nat)
      if correct = 0 then ⟨st, some .signatureInvalid, gets⟩ else ⟨st, none, gets⟩

/-- Model of `Webhook.verifySignature(payload, headers)` (src/webhook.js lines
56-111): reject a non-ECC `x-signature-type` first; then read
`this._keys[identity]` — for an unknown identity the subsequent
`new Date(trusted.expirationDate)` throws a TypeError before any digest
or signature work; then refresh via `addTrusted` when the entry is past
its expiration (a failed refresh rejects the whole call and leaves the
cache untouched); finally run the digest and signature checks. -/
def verifySignature (env : VerifEnv) (st : KeyMap) (payload : List Nat)
    (headers : Headers) : VerifyOut :=
  if headers.xSignatureType ≠ "ECC" then ⟨st, some .unsupportedSignatureType, []⟩
  else
    match getKey st headers.xIdentity with
    | none => ⟨st, some .typeError, []⟩
    | some trusted =>
      if env.now > trusted.expirationDate then
        match addTrusted st trusted.endpoint (env.fetch trusted.endpoint) with
        | (st1, some e) => ⟨st1, some e, [trusted.endpoint]⟩
        | (st1, none) => finishVerify env st1 payload headers [trusted.endpoint]
      else finishVerify env st payload headers []

end Webhook

/-!
## Event callback dispatch (`forEach` over a callback list)
-/

/-- One event callback: invoking it either returns or throws. -/
def Callback : Type := Unit → Except String Unit

/-- Whether a callback returns without throwing. -/
def cbOk (cb : Callback) : Bool :=
  match cb () with
  | .ok _ => true
  | .error _ => false

/-- Model of `callbacks.forEach(cb => cb(msg))` as dispatched by the lifecycle code
(e.g. `this._instance.on.created.forEach(cb => cb())`, src/invoice.js line
327, and the push handlers, lines 379-382): callbacks run synchronously in
registration order; in JavaScript an exception thrown by a callback
propagates out of `forEach`, so the remaining callbacks do not run.
Returns the zero-based indices of the callbacks that were invoked (in
order) and the propagated exception, if any; `i` is the index of the first
callback of `cbs`. -/
def runCallbacksFrom (cbs : List Callback) (i : Nat) : List Nat × Option String :=
  match cbs with
  | [] => ([], none)
  | cb :: rest =>
    match cb () with
    | .ok _ =>
      let r := runCallbacksFrom rest (i + 1)
      (i :: r.1, r.2)
    | .error e => ([i], some e)

/-- Dispatch of one event firing over its full callback list. -/
def runCallbacks (cbs : List Callback) : List Nat × Option String :=
  runCallbacksFrom cbs 0

/-- Two registered callbacks: the first throws, the second returns. -/
def demoCallbacks : List Callback :=
  [fun _ => .error ("boom"), fun _ => .ok ()]

/-!
## Concrete instances used by witnesses
-/

/-- A concrete verification environment: the hash is the identity on byte
lists, the signing-keys GET always rejects, and a public key verifies
exactly when it is the string `"goodkey"`. -/
def envW : VerifEnv :=
  { now := 0
    fetch := fun _ => .error ()
    sha256 := fun l => l
    eccVerify := fun pk _ _ => pk == "goodkey" }

/-- A cache holding one unexpired entry for identity `"srv"`. -/
def stW : KeyMap :=
  [("srv", ⟨"https://pay.example", 100, ["badkey", "goodkey"]⟩)]

/-- The entry `stW` holds for `"srv"`. -/
def entryW : KeyEntry := ⟨"https://pay.example", 100, ["badkey", "goodkey"]⟩

end CashPay

open CashPay

/-!
## Helper lemmas
-/

theorem onSet_keys (m : OnMap) (a : String) (l : List Nat) :
    (onSet m a l).map Prod.fst = m.map Prod.fst := by
  simp only [onSet, List.map_map]
  apply List.map_congr_left
  intro p _
  by_cases h : p.1 = a <;> simp [h]

theorem onLookup_isSome_eq (m : OnMap) (x : String) :
    (onLookup m x).isSome = (m.map Prod.fst).contains x := by
  induction m with
  | nil => rfl
  | cons p rest ih =>
    simp only [List.map_cons, List.contains_cons]
    by_cases h : p.1 = x
    · subst h
      simp [onLookup, List.find?_cons]
    · have h2 : (x == p.1) = false := by
        simp only [beq_eq_false_iff_ne, ne_eq]
        exact fun c => h c.symm
      have h3 : (p.1 == x) = false := by
        simp only [beq_eq_false_iff_ne, ne_eq]
        exact h
      simp only [onLookup, List.find?_cons, h3, h2, Bool.false_or]
      simpa [onLookup] using ih

theorem onEvent_isOk (events : List String) (cb : Nat) :
    ∀ m : OnMap, ((Invoice.onEvent events cb m).isOk = true) ↔
      ∀ e ∈ events, (m.map Prod.fst).contains e = true := by
  induction events with
  | nil =>
    intro m
    simp [Invoice.onEvent, Except.isOk, Except.toBool]
  | cons e rest ih =>
    intro m
    simp only [Invoice.onEvent]
    cases hlook : onLookup m e with
    | none =>
      have hcont : (m.map Prod.fst).contains e = false := by
        have := onLookup_isSome_eq m e; rw [hlook] at this; simpa using this.symm
      simp only [Except.isOk, Except.toBool]
      constructor
      · intro h; exact absurd h (by simp)
      · intro h
        have := h e (List.mem_cons_self e rest)
        rw [hcont] at this
        exact absurd this (by simp)
    | some l =>
      have hcont : (m.map Prod.fst).contains e = true := by
        have := onLookup_isSome_eq m e; rw [hlook] at this; simpa using this.symm
      have hkeys := onSet_keys m e (l ++ [cb])
      have hrest := ih (onSet m e (l ++ [cb]))
      rw [hkeys] at hrest
      rw [hrest]
      constructor
      · intro h x hx
        rcases List.mem_cons.mp hx with hx | hx
        · subst hx; exact hcont
        · exact h x hx
      · intro h x hx
        exact h x (List.mem_cons_of_mem _ hx)

theorem jsRound1000_shift (a m : Int) :
    jsRound1000 (a - 1000 * m) = jsRound1000 a - m := by
  unfold jsRound1000
  omega

theorem secondsRemainingAt_succ (e s : Int) (j : Nat) :
    secondsRemainingAt e s (j + 1) = secondsRemainingAt e s 1 - j := by
  unfold secondsRemainingAt jsRound1000
  push_cast
  omega

theorem runCountdown_running (e s : Int) (h : 0 ≤ secondsRemainingAt e s 1) :
    ∀ k : Nat, k ≤ (secondsRemainingAt e s 1).toNat →
      runCountdown e s k =
        ⟨k, false, (List.range k).map
          (fun i : Nat => CountdownEvent.timer (secondsRemainingAt e s 1 - (i : Int)))⟩ := by
  intro k
  induction k with
  | zero => intro _; rfl
  | succ k ih =>
    intro hk
    have hk' : k ≤ (secondsRemainingAt e s 1).toNat := Nat.le_of_succ_le hk
    have hlt : (k : Int) < secondsRemainingAt e s 1 := by omega
    have hr : secondsRemainingAt e s (k + 1) = secondsRemainingAt e s 1 - k :=
      secondsRemainingAt_succ e s k
    have hne : secondsRemainingAt e s (k + 1) ≠ 0 := by omega
    simp only [runCountdown, ih hk', tickStep]
    rw [if_neg (by simp), if_pos hne, hr, List.range_succ, List.map_append]
    rfl

theorem runCountdown_expiry (e s : Int) (h : 0 ≤ secondsRemainingAt e s 1) :
    runCountdown e s ((secondsRemainingAt e s 1).toNat + 1) =
      ⟨(secondsRemainingAt e s 1).toNat + 1, true,
        (List.range (secondsRemainingAt e s 1).toNat).map
          (fun i : Nat => CountdownEvent.timer (secondsRemainingAt e s 1 - (i : Int))) ++
        [CountdownEvent.expired]⟩ := by
  have hrun := runCountdown_running e s h (secondsRemainingAt e s 1).toNat le_rfl
  have hr : secondsRemainingAt e s ((secondsRemainingAt e s 1).toNat + 1) = 0 := by
    rw [secondsRemainingAt_succ]
    omega
  simp only [runCountdown, hrun, tickStep, hr]
  rfl

theorem runCountdown_stopped (e s : Int) (n : Nat)
    (h : (runCountdown e s n).stopped = true) :
    ∀ m : Nat, runCountdown e s (n + m) = runCountdown e s n := by
  intro m
  induction m with
  | zero => rfl
  | succ m ih =>
    have : n + (m + 1) = (n + m) + 1 := by omega
    rw [this]
    simp only [runCountdown, ih, tickStep, h, if_true]

/-- Extracting the `secondsRemaining` arguments of the timer events from a
trace of timer events built over a range. -/
theorem filterMap_timer_map (r0 : Int) (N : Nat) :
    ((List.range N).map
        (fun i : Nat => CountdownEvent.timer (r0 - (i : Int)))).filterMap
      (fun ev => match ev with
        | CountdownEvent.timer r => some r
        | CountdownEvent.expired => none) =
    (List.range N).map (fun i : Nat => r0 - (i : Int)) := by
  induction N with
  | zero => rfl
  | succ k ih =>
    rw [List.range_succ]
    simp only [List.map_append, List.filterMap_append, ih]
    rfl

/-- The `isValid += verify(...)` reduction counts the keys satisfying the
predicate. -/
theorem foldl_verify_count (p : String → Bool) (l : List String) :
    ∀ acc : Nat,
      l.foldl (fun a pk => a + (if p pk then 1 else 0)) acc = acc + l.countP p := by
  induction l with
  | nil => intro acc; simp
  | cons x xs ih =>
    intro acc
    by_cases hx : p x
    · simp only [List.foldl_cons, List.countP_cons, hx, if_true, ih]
      omega
    · simp only [List.foldl_cons, List.countP_cons, hx, if_false, ih]
      omega

theorem verifySignature_no_refresh (env : VerifEnv) (st : KeyMap)
    (payload : List Nat) (headers : Headers) (t : KeyEntry)
    (hE : headers.xSignatureType = "ECC")
    (hK : getKey st headers.xIdentity = some t)
    (hX : ¬ env.now > t.expirationDate) :
    Webhook.verifySignature env st payload headers =
      Webhook.finishVerify env st payload headers [] := by
  unfold Webhook.verifySignature
  rw [if_neg (by simp [hE]), hK]
  exact if_neg hX

theorem finishVerify_eval (env : VerifEnv) (st : KeyMap)
    (payload : List Nat) (headers : Headers) (t : KeyEntry) (gets : List String)
    (hK : getKey st headers.xIdentity = some t)
    (hD : env.sha256 payload = headers.digest) :
    Webhook.finishVerify env st payload headers gets =
      (if t.publicKeys.countP
          (fun pk => env.eccVerify pk headers.digest headers.xSignature) = 0
       then ⟨st, some VerifError.signatureInvalid, gets⟩
       else ⟨st, none, gets⟩) := by
  unfold Webhook.finishVerify
  rw [if_neg (by simp [hD]), hK]
  show (if t.publicKeys.foldl _ 0 = 0 then _ else _) = _
  rw [foldl_verify_count]
  simp

theorem runCallbacksFrom_spec (cbs : List Callback) :
    ∀ i : Nat, (runCallbacksFrom cbs i).1 =
      List.range' i (min cbs.length ((cbs.takeWhile cbOk).length + 1)) := by
  induction cbs with
  | nil => intro i; rfl
  | cons cb rest ih =>
    intro i
    simp only [runCallbacksFrom]
    cases hcb : cb () with
    | ok u =>
      have hok : cbOk cb = true := by simp [cbOk, hcb]
      simp only [List.takeWhile_cons, hok, if_true, List.length_cons]
      rw [Nat.succ_min_succ, List.range'_succ]
      simp only [ih (i + 1)]
    | error e =>
      have hok : cbOk cb = false := by simp [cbOk, hcb]
      have htw : List.takeWhile cbOk (cb :: rest) = [] := by
        rw [List.takeWhile_cons, hok]
        rfl
      rw [htw]
      have hmin : min ((cb :: rest).length) (([] : List Callback).length + 1) = 1 := by
        simp
      rw [hmin, List.range'_succ]
      rfl

/-!
## Claim theorems
-/

/-- C1: calling `create()` twice is claimed to perform exactly one POST to
`{endpoint}/invoice/create`.  On the code this fails: the guard tests
`this._id`, a field the library never assigns (its constructor and
defaults declare no `_id`, and the documented identifier merged from the
response is `id`).  With a first response that assigns `id` per the wire
contract, the invoice after the first `create()` carries the server
identifier, yet the second `create()` issues a second POST. -/
theorem create_double_post_on_documented_response :
    (Invoice.create Invoice.init respDocumented) =
      (⟨none, some ("abc"), some 900⟩, 1) ∧
    (Invoice.create (Invoice.create Invoice.init respDocumented).1
        respDocumented).2 = 1 ∧
    jsTruthy (Invoice.create Invoice.init respDocumented).1.id = true := by
  decide

/-- C2: for a normal invoice whose countdown starts with a non-negative
remaining time (`secondsRemainingAt e s 1` is the value the first tick
computes), the trace of the countdown is: `timer` events with strictly
decreasing, strictly positive `secondsRemaining` values, one per tick,
followed by exactly one `expired` event, after which the interval is
cleared by the listener `create()` registered and no further event is ever
delivered — the trace after any number `n` of additional ticks is
unchanged. -/
theorem normal_invoice_countdown_trace (e s : Int) (n : Nat)
    (h : 0 ≤ secondsRemainingAt e s 1) :
    runCountdown e s ((secondsRemainingAt e s 1).toNat + 1 + n) =
      ⟨(secondsRemainingAt e s 1).toNat + 1, true,
        (List.range (secondsRemainingAt e s 1).toNat).map
          (fun i : Nat => CountdownEvent.timer (secondsRemainingAt e s 1 - (i : Int))) ++
        [CountdownEvent.expired]⟩ ∧
    (runCountdown e s ((secondsRemainingAt e s 1).toNat + 1 + n)).events.count
        CountdownEvent.expired = 1 ∧
    (∀ r : Int, CountdownEvent.timer r ∈
        (runCountdown e s ((secondsRemainingAt e s 1).toNat + 1 + n)).events → 0 < r) ∧
    ((runCountdown e s ((secondsRemainingAt e s 1).toNat + 1 + n)).events.filterMap
        (fun ev => match ev with
          | CountdownEvent.timer r => some r
          | CountdownEvent.expired => none)).Pairwise (fun a b => b < a) := by
  have hstop : (runCountdown e s ((secondsRemainingAt e s 1).toNat + 1)).stopped = true := by
    rw [runCountdown_expiry e s h]
  have hmain : runCountdown e s ((secondsRemainingAt e s 1).toNat + 1 + n) =
      ⟨(secondsRemainingAt e s 1).toNat + 1, true,
        (List.range (secondsRemainingAt e s 1).toNat).map
          (fun i : Nat => CountdownEvent.timer (secondsRemainingAt e s 1 - (i : Int))) ++
        [CountdownEvent.expired]⟩ := by
    rw [runCountdown_stopped e s _ hstop n, runCountdown_expiry e s h]
  refine ⟨hmain, ?_, ?_, ?_⟩
  · rw [hmain]
    rw [List.count_append]
    have h0 : ((List.range (secondsRemainingAt e s 1).toNat).map
        (fun i : Nat => CountdownEvent.timer (secondsRemainingAt e s 1 - (i : Int)))).count
          CountdownEvent.expired = 0 := by
      rw [List.count_eq_zero]
      intro hmem
      simp [List.mem_map] at hmem
    rw [h0]
    rfl
  · intro r hr
    rw [hmain] at hr
    simp only [List.mem_append, List.mem_map, List.mem_range,
      List.mem_singleton] at hr
    rcases hr with ⟨i, hi, heq⟩ | heq
    · injection heq with heq2
      omega
    · simp at heq
  · rw [hmain]
    rw [List.filterMap_append, filterMap_timer_map]
    have h1 : ([CountdownEvent.expired].filterMap
        (fun ev => match ev with
          | CountdownEvent.timer r => some r
          | CountdownEvent.expired => none)) = [] := rfl
    rw [h1, List.append_nil, List.pairwise_map]
    exact (List.pairwise_lt_range _).imp (fun {a b} hab => by omega)

/-- C2 witness: a countdown whose first tick computes 2 seconds remaining
delivers `timer 2`, `timer 1`, then a single `expired`, and a fourth tick
adds nothing. -/
theorem normal_invoice_countdown_trace_witness :
    0 ≤ secondsRemainingAt 3000 0 1 ∧
    (runCountdown 3000 0 4).events =
      [CountdownEvent.timer 2, CountdownEvent.timer 1, CountdownEvent.expired] := by
  refine ⟨by decide, ?_⟩
  have h := (normal_invoice_countdown_trace 3000 0 1 (by decide)).1
  have h2 : (secondsRemainingAt 3000 0 1).toNat + 1 + 1 = 4 := by decide
  rw [h2] at h
  rw [h]
  decide

/-- C3: for every invoice that `create()` (globals revision) leaves in or
brings into the static behavior, the expiration timer is never started,
so the countdown delivers no `timer` and no `expired` event. -/
theorem static_invoice_no_countdown (st resp : GInvoice) (listen : Bool)
    (countdown : List CountdownEvent)
    (h : (GlobalsInvoice.create st resp listen countdown).invoice.details.behavior =
      "static") :
    (GlobalsInvoice.create st resp listen countdown).timerStarted = false ∧
    (GlobalsInvoice.create st resp listen countdown).countdownEvents = [] := by
  simp only [GlobalsInvoice.create] at h ⊢
  have hb : ((if jsTruthy st.id = true then st else resp).details.behavior ==
      "normal") = false := by
    rw [beq_eq_false_iff_ne, h]
    decide
  simp [hb]

/-- C3 witness: a static invoice created with `listen` on never starts the
timer and receives no countdown events. -/
theorem static_invoice_no_countdown_witness :
    ((GlobalsInvoice.create ⟨none, ⟨"normal"⟩⟩ ⟨some ("inv1"), ⟨"static"⟩⟩ true
        [CountdownEvent.timer 3]).invoice.details.behavior = "static") ∧
    ((GlobalsInvoice.create ⟨none, ⟨"normal"⟩⟩ ⟨some ("inv1"), ⟨"static"⟩⟩ true
        [CountdownEvent.timer 3]).timerStarted = false ∧
      (GlobalsInvoice.create ⟨none, ⟨"normal"⟩⟩ ⟨some ("inv1"), ⟨"static"⟩⟩ true
        [CountdownEvent.timer 3]).countdownEvents = []) :=
  ⟨by decide, static_invoice_no_countdown _ _ _ _ (by decide)⟩

/-- C4: for a verification call with the supported signature type, a known
unexpired identity and a matching payload digest, the call resolves
exactly when some public key of the trusted set verifies the signature,
and when the set is non-empty but no key verifies it fails with the
signature-verification error. -/
theorem verify_succeeds_iff_some_key_verifies (env : VerifEnv) (st : KeyMap)
    (payload : List Nat) (headers : Headers) (t : KeyEntry)
    (hE : headers.xSignatureType = "ECC")
    (hK : getKey st headers.xIdentity = some t)
    (hX : ¬ env.now > t.expirationDate)
    (hD : env.sha256 payload = headers.digest) :
    (((Webhook.verifySignature env st payload headers).result = none) ↔
      ∃ pk ∈ t.publicKeys,
        env.eccVerify pk headers.digest headers.xSignature = true) ∧
    ((t.publicKeys ≠ [] ∧ ∀ pk ∈ t.publicKeys,
        env.eccVerify pk headers.digest headers.xSignature = false) →
      (Webhook.verifySignature env st payload headers).result =
        some VerifError.signatureInvalid) := by
  rw [verifySignature_no_refresh env st payload headers t hE hK hX,
    finishVerify_eval env st payload headers t [] hK hD]
  constructor
  · by_cases hc : t.publicKeys.countP
        (fun pk => env.eccVerify pk headers.digest headers.xSignature) = 0
    · rw [if_pos hc]
      simp only [List.countP_eq_zero] at hc
      constructor
      · intro habs; exact absurd habs (by simp)
      · rintro ⟨pk, hpk, hv⟩
        exact absurd hv (by simpa using hc pk hpk)
    · rw [if_neg hc]
      have hpos : 0 < t.publicKeys.countP
          (fun pk => env.eccVerify pk headers.digest headers.xSignature) :=
        Nat.pos_of_ne_zero hc
      rw [List.countP_pos_iff] at hpos
      simp only [true_iff]
      obtain ⟨pk, hpk, hv⟩ := hpos
      exact ⟨pk, hpk, hv⟩
  · rintro ⟨-, hall⟩
    have hc : t.publicKeys.countP
        (fun pk => env.eccVerify pk headers.digest headers.xSignature) = 0 := by
      rw [List.countP_eq_zero]
      intro pk hpk
      simp [hall pk hpk]
    rw [if_pos hc]

/-- C4 witness: with the toy environment, identity `"srv"` whose set holds
`"badkey"` and `"goodkey"`, a matching digest, and the verifier accepting
exactly `"goodkey"`, the call resolves and the iff holds. -/
theorem verify_succeeds_iff_some_key_verifies_witness :
    ((⟨[1, 2], "srv", [9], "ECC"⟩ : Headers).xSignatureType = "ECC") ∧
    (getKey stW ("srv") = some entryW) ∧
    (¬ envW.now > entryW.expirationDate) ∧
    (envW.sha256 [1, 2] = [1, 2]) ∧
    ((((Webhook.verifySignature envW stW [1, 2] ⟨[1, 2], "srv", [9], "ECC"⟩).result =
        none) ↔
      ∃ pk ∈ entryW.publicKeys, envW.eccVerify pk [1, 2] [9] = true) ∧
    ((entryW.publicKeys ≠ [] ∧ ∀ pk ∈ entryW.publicKeys,
        envW.eccVerify pk [1, 2] [9] = false) →
      (Webhook.verifySignature envW stW [1, 2] ⟨[1, 2], "srv", [9], "ECC"⟩).result =
        some VerifError.signatureInvalid)) :=
  ⟨rfl, rfl, by decide, rfl,
    verify_succeeds_iff_some_key_verifies envW stW [1, 2]
      ⟨[1, 2], "srv", [9], "ECC"⟩ entryW rfl rfl (by decide) rfl⟩

/-- C5: when the signing-keys GET rejects (network or parse failure),
`addTrusted` fails with the key-fetch error and the key cache — including
any stale, even expired, entry for any identity — is left completely
unchanged. -/
theorem failed_refresh_preserves_keys (st : KeyMap) (ep idt : String) :
    (Webhook.addTrusted st ep (.error ())).1 = st ∧
    (Webhook.addTrusted st ep (.error ())).2 = some VerifError.keyFetchError ∧
    getKey (Webhook.addTrusted st ep (.error ())).1 idt = getKey st idt :=
  ⟨rfl, rfl, rfl⟩

/-- C6: a verification call whose `x-signature-type` differs from `"ECC"`
fails with the unsupported-signature-type error, performs no HTTP GET of
the signing-keys resource, and leaves the key cache untouched. -/
theorem non_ecc_rejected_before_fetch (env : VerifEnv) (st : KeyMap)
    (payload : List Nat) (headers : Headers)
    (h : headers.xSignatureType ≠ "ECC") :
    Webhook.verifySignature env st payload headers =
      ⟨st, some VerifError.unsupportedSignatureType, []⟩ := by
  unfold Webhook.verifySignature
  rw [if_pos h]

/-- C6 witness: an `"RSA"` signature type is rejected with no fetch, even
for a known identity whose entry is expired. -/
theorem non_ecc_rejected_before_fetch_witness :
    (("RSA" : String) ≠ "ECC") ∧
    Webhook.verifySignature envW stW [1] ⟨[1], "srv", [2], "RSA"⟩ =
      ⟨stW, some VerifError.unsupportedSignatureType, []⟩ :=
  ⟨by decide, non_ecc_rejected_before_fetch envW stW [1] _ (by decide)⟩

/-- C7 counterexample: for an identity with no cached entry the claimed
distinguished trust error is not what the call produces — the code
crashes with a TypeError while reading `expirationDate` of `undefined`
(src/webhook.js line 87), so the result is `typeError`, not
`trustError`. -/
theorem unknown_identity_not_trust_error :
    (Webhook.verifySignature envW ([] : KeyMap) [1]
        ⟨[1], "ghost", [2], "ECC"⟩).result = some VerifError.typeError ∧
    (Webhook.verifySignature envW ([] : KeyMap) [1]
        ⟨[1], "ghost", [2], "ECC"⟩).result ≠ some VerifError.trustError := by
  constructor
  · rfl
  · decide

/-- C7 (amended): for an unknown identity with the supported signature
type, the call does fail before any key fetch and before the digest or
signature checks, but with the generic TypeError of reading
`trusted.expirationDate` on `undefined`, not with a distinguished
trust error. -/
theorem unknown_identity_type_error_before_checks (env : VerifEnv)
    (st : KeyMap) (payload : List Nat) (headers : Headers)
    (hE : headers.xSignatureType = "ECC")
    (hK : getKey st headers.xIdentity = none) :
    Webhook.verifySignature env st payload headers =
      ⟨st, some VerifError.typeError, []⟩ := by
  unfold Webhook.verifySignature
  rw [if_neg (by simp [hE]), hK]

/-- C7 witness: the unknown identity `"ghost"` on an empty cache fails
with the TypeError, no fetch, cache unchanged. -/
theorem unknown_identity_type_error_before_checks_witness :
    ((⟨[1], "ghost", [2], "ECC"⟩ : Headers).xSignatureType = "ECC") ∧
    (getKey ([] : KeyMap) "ghost" = none) ∧
    Webhook.verifySignature envW ([] : KeyMap) [1] ⟨[1], "ghost", [2], "ECC"⟩ =
      ⟨[], some VerifError.typeError, []⟩ :=
  ⟨rfl, rfl,
    unknown_identity_type_error_before_checks envW ([] : KeyMap) [1]
      ⟨[1], "ghost", [2], "ECC"⟩ rfl rfl⟩

/-- C8 counterexample: in the globals revision the `requested` handler
assigns `this.invoice = msg.invoice` wholesale, so a push message carrying
a different identifier reassigns `id`: an invoice with id `"a"` ends up
with id `"b"`. -/
theorem globals_handler_overwrites_id :
    (GlobalsInvoice.handleRequested ⟨⟨some ("a"), ⟨"normal"⟩⟩⟩
        ⟨⟨some ("b"), ⟨"normal"⟩⟩⟩).invoice.id = some ("b") ∧
    (some ("b") : Option String) ≠ some ("a") := by
  constructor
  · rfl
  · decide

/-- C8 (amended): in the primary revision the `requested` and
`broadcasted` handlers merge with `Object.assign(this,
_.omit(msg.invoice, 'id'))`, so `id` is never changed by any push
message; in the globals revision the handlers replace `this.invoice`
wholesale, so afterwards the local `id` equals the server-sent one — it
is preserved only when the message echoes the invoice's own id. -/
theorem push_merge_id_semantics (st : InvoiceV1) (msg : PushMsg)
    (g : GState) (gm : GPushMsg) :
    (Invoice.handleRequested st msg).id = st.id ∧
    (Invoice.handleBroadcasted st msg).id = st.id ∧
    (GlobalsInvoice.handleRequested g gm).invoice.id = gm.invoice.id ∧
    (GlobalsInvoice.handleBroadcasted g gm).invoice.id = gm.invoice.id :=
  ⟨rfl, rfl, rfl, rfl⟩

/-- C9 counterexample: with two registered callbacks of which the first
throws, `forEach` dispatch invokes only the first — the later-registered
callback (index 1) is never invoked, contradicting the claim that one
callback's exception does not prevent the remaining callbacks. -/
theorem throwing_callback_stops_dispatch :
    (runCallbacks demoCallbacks).1 = [0] ∧
    1 ∉ (runCallbacks demoCallbacks).1 := by
  constructor
  · rfl
  · decide

/-- C9 (amended): dispatch is synchronous and in registration order, and
the set of invoked callbacks is exactly the initial segment of the
registration list up to and including the first throwing callback (all of
them when none throws): an exception propagates out of `forEach` and
prevents every later-registered callback of that firing. -/
theorem dispatch_order_and_stop_semantics (cbs : List Callback) :
    (runCallbacks cbs).1 =
      List.range (min cbs.length ((cbs.takeWhile cbOk).length + 1)) := by
  rw [runCallbacks, runCallbacksFrom_spec cbs 0, List.range_eq_range']

/-- C10: `Invoice.on(events, callback)` succeeds exactly when every given
event name is one of the nine names pre-declared in
`config.options.on`; any other name hits an `undefined` callback list and
the call throws (a TypeError from `undefined.push`) instead of returning
the invoice. -/
theorem on_unknown_event_throws (events : List String) (cb : Nat) :
    ((Invoice.onEvent events cb defaultOnMap).isOk = true) ↔
      (∀ e ∈ events, eventNames.contains e = true) := by
  have hkeys : defaultOnMap.map Prod.fst = eventNames := by rfl
  have := onEvent_isOk events cb defaultOnMap
  rw [hkeys] at this
  exact this

/-- C10 witness-style instance: registering on the unknown event name
`"confirmed"` (not among the nine declared names) throws, by the theorem. -/
theorem on_unknown_event_throws_witness :
    ((Invoice.onEvent ["confirmed"] 0 defaultOnMap).isOk = true) ↔
      (∀ e ∈ ["confirmed"], eventNames.contains e = true) :=
  on_unknown_event_throws ["confirmed"] 0
